import Mathlib

/-!
Verification of the lunch-receipt extraction script (src/main.py) against its
natural-language specification.

The script is a linear pipeline: check the image exists, read and base64-encode
it, call the remote Mistral API, parse the JSON reply, save the parsed data to
a JSON file, and rename the image to match.  We embed the pipeline shallowly:

* Python values parsed from JSON become the inductive type `PyJson`
  (numbers are modelled as integers; no claim depends on numeric values).
* `json.loads` (standard library) is abstracted as the `Except Unit PyJson`
  result it returns for the reply content.
* `re.match r"^(\d{2})-(\d{2})-(\d{4})$"` is compiled to `matchReceiptDate`.
  Following CPython `re` semantics, `$` matches at the end of the string or
  just before a single trailing newline, a group is the matched slice, and
  `\d` on a `str` pattern matches every Unicode decimal digit (category Nd):
  `isPyDigit` carries the code-point table of CPython 3.11's database.
* `os.path.dirname`, `os.path.splitext` and `os.path.join` (POSIX flavour,
  two-argument join) are translated from CPython's `posixpath`.
* Exceptions become `Except PyError`; `main`'s behaviour is `runMain`, a pure
  function from an environment (API outcome, key presence, ...) to the trace
  of effects performed, the resulting filesystem state and the error printed,
  if any.  Relative paths are resolved against the process working directory,
  as the OS does for `open` and `os.rename`.
-/

namespace Receipt

/-- Python values produced by `json.loads` (numbers modelled as integers). -/
inductive PyJson where
  | null
  | bool (b : Bool)
  | int (n : Int)
  | str (s : String)
  | arr (elems : List PyJson)
  | obj (fields : List (String × PyJson))
deriving Repr

/-- Python exceptions raised along the pipeline, with their message. -/
inductive PyError where
  | attributeError (msg : String)
  | typeError (msg : String)
  | valueError (msg : String)
deriving Repr, DecidableEq

/-- Message carried by an exception; `print(e)` in `main` prints it. -/
def pyErrMessage : PyError → String
  | .attributeError m => m
  | .typeError m => m
  | .valueError m => m

/-- Name of the Python type of a parsed value, as it appears in messages. -/
def pyTypeName : PyJson → String
  | .null => "NoneType"
  | .bool _ => "bool"
  | .int _ => "int"
  | .str _ => "str"
  | .arr _ => "list"
  | .obj _ => "dict"

/-- Lookup in a Python dict built by `json.loads` from an association list:
a duplicated key keeps the value of its last occurrence. -/
def dictGet : List (String × PyJson) → String → Option PyJson
  | [], _ => none
  | (k, v) :: rest, key =>
    match dictGet rest key with
    | some v' => some v'
    | none => if k = key then some v else none

/-- Non-ASCII Unicode decimal-digit ranges (category Nd) that `\d` matches
on CPython 3.11 `str` patterns, as pairs of first and last code point; the
ASCII range 48-57 is covered by `Char.isDigit` in `isPyDigit`. -/
def pyDigitRanges : List (Nat × Nat) :=
  [(1632, 1641), (1776, 1785), (1984, 1993), (2406, 2415), (2534, 2543), 
   (2662, 2671), (2790, 2799), (2918, 2927), (3046, 3055), (3174, 3183), 
   (3302, 3311), (3430, 3439), (3558, 3567), (3664, 3673), (3792, 3801), 
   (3872, 3881), (4160, 4169), (4240, 4249), (6112, 6121), (6160, 6169), 
   (6470, 6479), (6608, 6617), (6784, 6793), (6800, 6809), (6992, 7001), 
   (7088, 7097), (7232, 7241), (7248, 7257), (42528, 42537), 
   (43216, 43225), (43264, 43273), (43472, 43481), (43504, 43513), 
   (43600, 43609), (44016, 44025), (65296, 65305), (66720, 66729), 
   (68912, 68921), (69734, 69743), (69872, 69881), (69942, 69951), 
   (70096, 70105), (70384, 70393), (70736, 70745), (70864, 70873), 
   (71248, 71257), (71360, 71369), (71472, 71481), (71904, 71913), 
   (72016, 72025), (72784, 72793), (73040, 73049), (73120, 73129), 
   (92768, 92777), (92864, 92873), (93008, 93017), (120782, 120831), 
   (123200, 123209), (123632, 123641), (125264, 125273), (130032, 130041)]

/-- CPython `\d` on a `str` pattern: any Unicode decimal digit. -/
def isPyDigit (c : Char) : Bool :=
  c.isDigit
    || pyDigitRanges.any fun r => decide (r.1 ≤ c.toNat) && decide (c.toNat ≤ r.2)

/-- Body of the date regular expression: exactly two digits, a dash, two
digits, a dash and four digits (digits in the sense of `\d`, so Unicode
decimal digits), returning the three groups (day, month, year) as strings. -/
def matchDateCore : List Char → Option (String × String × String)
  | [d1, d2, h1, m1, m2, h2, y1, y2, y3, y4] =>
    if isPyDigit d1 && isPyDigit d2 && h1 == '-' && isPyDigit m1 && isPyDigit m2
        && h2 == '-' && isPyDigit y1 && isPyDigit y2 && isPyDigit y3 && isPyDigit y4
    then some (⟨[d1, d2]⟩, ⟨[m1, m2]⟩, ⟨[y1, y2, y3, y4]⟩)
    else none
  | _ => none

/-- CPython semantics of
`re.match r"^(\d{2})-(\d{2})-(\d{4})$" date_str`:
the anchor `$` matches at the end of the string or just before a single
newline that ends the string. -/
def matchReceiptDate (s : String) : Option (String × String × String) :=
  match matchDateCore s.data with
  | some g => some g
  | none =>
    if s.data.getLast? == some '\n' then matchDateCore s.data.dropLast else none

/-- Translation of `extract_filename_from_date` from src/main.py.
`parsed_data.get ("date", "")` raises `AttributeError` on a non-dict, and
`re.match` raises `TypeError` when the date value is not a string. -/
def extract_filename_from_date (parsed_data : PyJson) : Except PyError String :=
  match parsed_data with
  | .obj fields =>
    match (dictGet fields "date").getD (.str "") with
    | .str date_str =>
      match matchReceiptDate date_str with
      | some (day, month, year) =>
        .ok ("lunch_receipt_" ++ month ++ "_" ++ day ++ "_" ++ year ++ ".json")
      | none => .ok "lunch_receipt_unknown_date.json"
    | other =>
      .error (.typeError
        ("expected string or bytes-like object, got '" ++ pyTypeName other
          ++ "'"))
  | other =>
    .error (.attributeError
      ("'" ++ pyTypeName other ++ "' object has no attribute 'get'"))

/-- Rightmost split of a character list at a character: `some (pre, post)`
with `cs = pre ++ c :: post` and `c` not occurring in `post`, or `none`
when `c` does not occur at all. -/
def rsplitOnce : List Char → Char → Option (List Char × List Char)
  | [], _ => none
  | x :: xs, c =>
    match rsplitOnce xs c with
    | some (pre, post) => some (x :: pre, post)
    | none => if x == c then some ([], xs) else none

/-- Removal of the trailing slashes of a character list
(`head.rstrip (sep)` in `posixpath.dirname`). -/
def rstripSlashes (cs : List Char) : List Char :=
  (cs.reverse.dropWhile (· == '/')).reverse

/-- Translation of `posixpath.dirname`: everything up to and including the
last slash; the trailing slashes of that head are stripped unless the head
consists of slashes only. -/
def dirname (p : String) : String :=
  match rsplitOnce p.data '/' with
  | none => ""
  | some (pre, _) =>
    if (pre ++ ['/']).all (· == '/') then ⟨pre ++ ['/']⟩
    else ⟨rstripSlashes (pre ++ ['/'])⟩

/-- Splitting of the extension once the path is divided into a directory
prefix `dir` (slash included) and a basename `base`: the extension starts at
the last dot of the basename, provided some character of the basename before
that dot is not itself a dot. -/
def splitextAux (p : String) (dir base : List Char) : String × String :=
  match rsplitOnce base '.' with
  | none => (p, "")
  | some (bpre, bpost) =>
    if bpre.all (· == '.') then (p, "")
    else (⟨dir ++ bpre⟩, ⟨'.' :: bpost⟩)

/-- Translation of `posixpath.splitext`: split off the extension at the last
dot of the basename (so a leading-dot filename has no extension). -/
def splitext (p : String) : String × String :=
  match rsplitOnce p.data '/' with
  | some (pre, post) => splitextAux p (pre ++ ['/']) post
  | none => splitextAux p [] p.data

/-- Translation of the two-argument `posixpath.join`. -/
def joinPath (a b : String) : String :=
  if b.data.head? == some '/' then b
  else if a = "" || a.data.getLast? == some '/' then a ++ b
  else a ++ "/" ++ b

/-- Resolution of a path against the process working directory, as the
operating system does for `open` and `os.rename`: an absolute path stands
alone, a relative one is joined to the working directory. -/
def resolvePath (cwd p : String) : String :=
  if p.data.head? == some '/' then p else joinPath cwd p

/-- Path the image is moved to by `rename_image_file` in src/main.py:
the JSON filename with its extension replaced by the original image's
extension, joined to the original image's directory. -/
def rename_image_file_target (original_image_path json_filename : String) : String :=
  let base_dir := dirname original_image_path
  let original_ext := (splitext original_image_path).2
  let image_basename := (splitext json_filename).1
  joinPath base_dir (image_basename ++ original_ext)

/-- Filesystem state seen by the script: the working directory, the JSON
files written (absolute path and parsed content) and the image's current
absolute path. -/
structure FS where
  cwd : String
  jsonFiles : List (String × PyJson)
  imagePath : String
deriving Repr

/-- Observable effects of one run, in the order they are performed. -/
inductive Event where
  | checkExists (path : String)
  | readEncode (path : String)
  | apiCall
  | parseReply
  | writeJson (path : String)
  | renameImage (oldPath newPath : String)
deriving Repr

/-- Outcome of `process_chat_response`: its trace, the filesystem after it,
and the exception it raised, if any. -/
structure StepOut where
  trace : List Event
  fs : FS
  result : Except PyError Unit
deriving Repr

/-- Translation of `process_chat_response` from src/main.py, taking the
`json.loads` outcome for the (stripped) reply content: a decode failure is
re-raised as `ValueError`; otherwise the filename is derived from the date,
the parsed data is saved under it (`save_json_data` opens the bare filename,
hence in the working directory) and the image is renamed. -/
def process_chat_response (parsed : Except Unit PyJson) (imagePath : String)
    (fs : FS) : StepOut :=
  match parsed with
  | .error _ =>
    ⟨[.parseReply], fs, .error (.valueError "Error: The response is not valid JSON.")⟩
  | .ok parsed_data =>
    match extract_filename_from_date parsed_data with
    | .error e => ⟨[.parseReply], fs, .error e⟩
    | .ok json_filename =>
      let jsonPath := resolvePath fs.cwd json_filename
      let fs1 : FS := ⟨fs.cwd, fs.jsonFiles ++ [(jsonPath, parsed_data)], fs.imagePath⟩
      let oldAbs := resolvePath fs.cwd imagePath
      let newAbs := resolvePath fs.cwd (rename_image_file_target imagePath json_filename)
      ⟨[.parseReply, .writeJson jsonPath, .renameImage oldAbs newAbs],
        ⟨fs1.cwd, fs1.jsonFiles, newAbs⟩, .ok ()⟩

/-- Environment of one invocation: the command-line image path, the working
directory, and the outcomes of the external interactions (existence check,
read-and-encode, API key lookup, API call with the `json.loads` result of
its reply). -/
structure Env where
  imagePath : String
  cwd : String
  fileExists : Bool
  encodeResult : Except String String
  apiKey : Option String
  apiResult : Except String (Except Unit PyJson)

/-- Result of one invocation of `main`: trace of effects, final filesystem
state, and the error message printed, if any. -/
structure RunOut where
  trace : List Event
  fs : FS
  printed : Option String
deriving Repr

/-- Translation of `main` from src/main.py: existence check, encode, API key
lookup, single API call, then `process_chat_response`; every failure is
printed and ends the run. -/
def runMain (env : Env) : RunOut :=
  let fs0 : FS := ⟨env.cwd, [], resolvePath env.cwd env.imagePath⟩
  if !env.fileExists then
    ⟨[.checkExists env.imagePath], fs0,
      some ("Error: The file " ++ env.imagePath ++ " was not found.")⟩
  else
    match env.encodeResult with
    | .error e => ⟨[.checkExists env.imagePath, .readEncode env.imagePath], fs0, some e⟩
    | .ok _ =>
      match env.apiKey with
      | none =>
        ⟨[.checkExists env.imagePath, .readEncode env.imagePath], fs0,
          some "'Error: MISTRAL_API_KEY environment variable not set.'"⟩
      | some _ =>
        match env.apiResult with
        | .error e =>
          ⟨[.checkExists env.imagePath, .readEncode env.imagePath, .apiCall], fs0,
            some ("Error calling Mistral API: " ++ e)⟩
        | .ok parsed =>
          let po := process_chat_response parsed env.imagePath fs0
          ⟨[.checkExists env.imagePath, .readEncode env.imagePath, .apiCall] ++ po.trace,
            po.fs,
            match po.result with
            | .error e => some (pyErrMessage e)
            | .ok _ => none⟩

/-- Check that an event is the read-and-encode step. -/
def isReadEncode : Event → Bool
  | .readEncode _ => true
  | _ => false

/-- Check that an event is the remote API call. -/
def isApiCall : Event → Bool
  | .apiCall => true
  | _ => false

/-- Check that an event is the parsing of the reply. -/
def isParseReply : Event → Bool
  | .parseReply => true
  | _ => false

/-- Check that an event writes the JSON result file. -/
def isWriteJson : Event → Bool
  | .writeJson _ => true
  | _ => false

/-- Check that an event renames the image. -/
def isRenameImage : Event → Bool
  | .renameImage _ _ => true
  | _ => false

/-- Check that an event modifies the filesystem (JSON write or rename). -/
def isFsMod (e : Event) : Bool := isWriteJson e || isRenameImage e

/-- Scan of a trace checking the pipeline order.  The four flags record
whether a read-and-encode, an API call, a reply parse, and a JSON write have
already been seen; an API call requires the read, a parse requires the API
call, a JSON write requires the parse and the API call, and a rename
requires the JSON write.  In particular no filesystem modification can
precede the API call. -/
def pipelineOrderedFrom : Bool → Bool → Bool → Bool → List Event → Bool
  | _, _, _, _, [] => true
  | r, a, p, w, e :: rest =>
    (match e with
     | .apiCall => r
     | .parseReply => a
     | .writeJson _ => p && a
     | .renameImage _ _ => w
     | _ => true)
    && pipelineOrderedFrom (r || isReadEncode e) (a || isApiCall e)
        (p || isParseReply e) (w || isWriteJson e) rest

/-- Check of the whole pipeline order on a trace, starting with nothing seen. -/
def pipelineOrdered (tr : List Event) : Bool :=
  pipelineOrderedFrom false false false false tr

/-- Number of remote API calls in a trace. -/
def countApiCalls (tr : List Event) : Nat := tr.countP isApiCall

/-- Date pattern exactly as the claims state it: two digits, a dash, two
digits, a dash, four digits, and nothing else.  Used to compare the claimed
behaviour with the code's `matchReceiptDate`. -/
def claimDatePattern (s : String) : Bool := (matchDateCore s.data).isSome

/-- Filename with its five-character ".json" suffix removed; this is the
spec-side description of the base name used when renaming the image. -/
def dropDotJson (s : String) : String := ⟨s.data.take (s.data.length - 5)⟩

/-- Check that no two consecutive characters are both slashes. -/
def noDoubleSlash : List Char → Bool
  | a :: b :: rest => !(a == '/' && b == '/') && noDoubleSlash (b :: rest)
  | _ => true

/-- Well-formed path: nonempty, without empty components, and not ending in
a slash. -/
def wfPath (p : String) : Bool :=
  !p.data.isEmpty && noDoubleSlash p.data && !(p.data.getLast? == some '/')

/-- Well-formed absolute directory, as `os.getcwd ()` returns one (the root
directory itself excluded): an absolute well-formed path. -/
def wfAbsDir (p : String) : Bool :=
  p.data.head? == some '/' && wfPath p

/-! Helper lemmas about the character-list operations underlying the
POSIX path functions. -/

theorem data_append (s t : String) : (s ++ t).data = s.data ++ t.data := by
  cases s
  cases t
  rfl

theorem rsplitOnce_none_iff {cs : List Char} {c : Char} :
    rsplitOnce cs c = none ↔ c ∉ cs := by
  induction cs with
  | nil => simp [rsplitOnce]
  | cons x xs ih =>
    rw [rsplitOnce]
    rcases h2 : rsplitOnce xs c with _ | ⟨p, q⟩
    · have hxs : c ∉ xs := ih.mp h2
      by_cases hxc : x = c
      · subst hxc
        simp
      · have hx : (x == c) = false := by simpa [beq_eq_false_iff_ne] using hxc
        simp only [hx, Bool.false_eq_true, if_false, List.mem_cons]
        simp only [hxs, or_false, true_iff]
        exact fun e => hxc e.symm
    · have hxs : c ∈ xs := by
        by_contra hc
        rw [ih.mpr hc] at h2
        exact Option.noConfusion h2
      simp [hxs]

theorem rsplitOnce_append {c : Char} (pre : List Char) {post : List Char}
    (h : c ∉ post) : rsplitOnce (pre ++ c :: post) c = some (pre, post) := by
  induction pre with
  | nil =>
    rw [List.nil_append, rsplitOnce, rsplitOnce_none_iff.mpr h]
    simp
  | cons x xs ih =>
    rw [List.cons_append, rsplitOnce, ih]

theorem rsplitOnce_some {cs : List Char} {c : Char} {pre post : List Char}
    (h : rsplitOnce cs c = some (pre, post)) :
    cs = pre ++ c :: post ∧ c ∉ post := by
  induction cs generalizing pre post with
  | nil => simp [rsplitOnce] at h
  | cons x xs ih =>
    rw [rsplitOnce] at h
    rcases h2 : rsplitOnce xs c with _ | ⟨p, q⟩
    · rw [h2] at h
      by_cases hxc : (x == c) = true
      · rw [if_pos hxc] at h
        simp only [Option.some.injEq, Prod.mk.injEq] at h
        obtain ⟨rfl, rfl⟩ := h
        refine ⟨?_, rsplitOnce_none_iff.mp h2⟩
        have hxc' : x = c := beq_iff_eq.mp hxc
        rw [List.nil_append, hxc']
      · rw [if_neg hxc] at h
        exact Option.noConfusion h
    · rw [h2] at h
      simp only [Option.some.injEq, Prod.mk.injEq] at h
      obtain ⟨h3, rfl⟩ := h
      obtain ⟨hcs, hq⟩ := ih h2
      subst h3
      exact ⟨by rw [hcs, List.cons_append], hq⟩

theorem rstripSlashes_append_slash {ys : List Char} (h : ys.getLast? ≠ some '/') :
    rstripSlashes (ys ++ ['/']) = ys := by
  have h1 : ys.reverse.dropWhile (· == '/') = ys.reverse := by
    cases hr : ys.reverse with
    | nil => rfl
    | cons a t =>
      have ha : (a == '/') = false := by
        have := List.head?_reverse ys
        rw [hr] at this
        simp only [List.head?_cons] at this
        simp only [beq_eq_false_iff_ne]
        intro e
        exact h (by rw [← this, e])
      simp [List.dropWhile, ha]
  unfold rstripSlashes
  rw [List.reverse_append, List.reverse_singleton, List.singleton_append,
    List.dropWhile, h1]
  simp

theorem noDoubleSlash_cons {a : Char} {l : List Char}
    (h : noDoubleSlash (a :: l) = true) : noDoubleSlash l = true := by
  cases l with
  | nil => rfl
  | cons b r =>
    rw [noDoubleSlash, Bool.and_eq_true] at h
    exact h.2

theorem noDoubleSlash_suffix {xs ys : List Char}
    (h : noDoubleSlash (xs ++ ys) = true) : noDoubleSlash ys = true := by
  induction xs with
  | nil => exact h
  | cons a t ih => exact ih (noDoubleSlash_cons (by rwa [List.cons_append] at h))

/-! Lemmas about the POSIX path functions. -/

theorem dirname_no_slash {p : String} (h : '/' ∉ p.data) : dirname p = "" := by
  unfold dirname
  rw [rsplitOnce_none_iff.mpr h]

theorem dirname_append_nonslash {ys zs : List Char} (h1 : '/' ∉ zs)
    (h2 : ys.getLast? ≠ some '/') (h3 : ∃ x ∈ ys, ¬ x = '/') :
    dirname ⟨ys ++ '/' :: zs⟩ = ⟨ys⟩ := by
  have h4 : ((ys ++ ['/']).all fun c => c == '/') = false := by
    rw [Bool.eq_false_iff]
    intro hAll
    obtain ⟨x, hx, hxne⟩ := h3
    exact hxne (beq_iff_eq.mp
      (List.all_eq_true.mp hAll x (List.mem_append_left _ hx)))
  unfold dirname
  rw [show (String.mk (ys ++ '/' :: zs)).data = ys ++ '/' :: zs from rfl,
    rsplitOnce_append ys h1]
  simp only [h4, Bool.false_eq_true, if_false]
  rw [rstripSlashes_append_slash h2]

theorem dirname_append_slashes {ys zs : List Char} (h1 : '/' ∉ zs)
    (h2 : ((ys ++ ['/']).all fun c => c == '/') = true) :
    dirname ⟨ys ++ '/' :: zs⟩ = ⟨ys ++ ['/']⟩ := by
  unfold dirname
  rw [show (String.mk (ys ++ '/' :: zs)).data = ys ++ '/' :: zs from rfl,
    rsplitOnce_append ys h1]
  simp only [h2, if_true]

theorem joinPath_empty_left (b : String) : joinPath "" b = b := by
  unfold joinPath
  have he : ("" : String) ++ b = b := by
    cases b
    rfl
  split
  · rfl
  · rw [if_pos (by simp), he]

theorem joinPath_slash_end {a b : String} (ha : a.data.getLast? = some '/')
    (hb : b.data.head? ≠ some '/') : joinPath a b = a ++ b := by
  unfold joinPath
  rw [if_neg (by simp [hb]), if_pos (by simp [ha])]

theorem joinPath_general {a b : String} (ha1 : a ≠ "")
    (ha2 : a.data.getLast? ≠ some '/') (hb : b.data.head? ≠ some '/') :
    joinPath a b = a ++ "/" ++ b := by
  unfold joinPath
  rw [if_neg (by simp [hb]), if_neg (by simp [ha1, ha2])]

theorem splitext_ext_no_slash (p : String) : '/' ∉ (splitext p).2.data := by
  have aux : ∀ (dir base : List Char), '/' ∉ base →
      '/' ∉ (splitextAux p dir base).2.data := by
    intro dir base hbase
    unfold splitextAux
    rcases h2 : rsplitOnce base '.' with _ | ⟨bpre, bpost⟩ <;>
      simp only [h2]
    · simp
    · obtain ⟨hb, _⟩ := rsplitOnce_some h2
      split
      · simp
      · intro hc
        rcases List.mem_cons.mp hc with h | h
        · exact absurd h.symm (by decide)
        · refine hbase ?_
          rw [hb]
          exact List.mem_append_right _ (List.mem_cons_of_mem _ h)
  unfold splitext
  rcases h1 : rsplitOnce p.data '/' with _ | ⟨pre, post⟩
  · exact aux _ _ (rsplitOnce_none_iff.mp h1)
  · exact aux _ _ (rsplitOnce_some h1).2

theorem splitext_stem_json {stem : List Char} (h1 : '/' ∉ stem)
    (h2 : '.' ∉ stem) (h3 : stem ≠ []) :
    splitext ⟨stem ++ ('.' :: ['j', 's', 'o', 'n'])⟩ = (⟨stem⟩, ".json") := by
  have hs : '/' ∉ stem ++ ('.' :: ['j', 's', 'o', 'n']) := by
    intro hc
    rcases List.mem_append.mp hc with h | h
    · exact h1 h
    · revert h
      decide
  have hall : (stem.all fun c => c == '.') = false := by
    rw [Bool.eq_false_iff]
    intro hAll
    rcases stem with _ | ⟨x, xs⟩
    · exact h3 rfl
    · exact h2 (by
        rw [beq_iff_eq.mp (List.all_eq_true.mp hAll x (List.mem_cons_self x xs))]
        exact List.mem_cons_self '.' xs)
  unfold splitext
  rw [show (String.mk (stem ++ ('.' :: ['j', 's', 'o', 'n']))).data
        = stem ++ ('.' :: ['j', 's', 'o', 'n']) from rfl,
    rsplitOnce_none_iff.mpr hs]
  unfold splitextAux
  rw [rsplitOnce_append stem (by decide)]
  simp only [hall, Bool.false_eq_true, if_false, List.nil_append]

/-! Lemmas about the date pattern and `extract_filename_from_date`. -/

theorem isDigit_ne_special {c : Char} (h : c.isDigit = true) :
    c ≠ '.' ∧ c ≠ '/' ∧ c ≠ '-' ∧ c ≠ '\n' := by
  refine ⟨?_, ?_, ?_, ?_⟩ <;> (intro e; subst e; exact absurd h (by decide))

theorem isDigit_isPyDigit {c : Char} (h : c.isDigit = true) :
    isPyDigit c = true := by
  unfold isPyDigit
  rw [h]
  rfl

theorem isPyDigit_ne_special {c : Char} (h : isPyDigit c = true) :
    c ≠ '.' ∧ c ≠ '/' ∧ c ≠ '-' ∧ c ≠ '\n' := by
  unfold isPyDigit at h
  rw [Bool.or_eq_true] at h
  rcases h with h1 | h2
  · exact isDigit_ne_special h1
  · obtain ⟨r, hr, hpr⟩ := List.any_eq_true.mp h2
    simp only [Bool.and_eq_true, decide_eq_true_eq] at hpr
    have hlo : 1632 ≤ r.1 :=
      (by decide : ∀ x ∈ pyDigitRanges, 1632 ≤ x.1) r hr
    have hc : 1632 ≤ c.toNat := le_trans hlo hpr.1
    refine ⟨?_, ?_, ?_, ?_⟩ <;> (intro e; subst e; exact absurd hc (by decide))

theorem matchDateCore_some {cs : List Char} {d m y : String}
    (h : matchDateCore cs = some (d, m, y)) :
    (∀ c ∈ d.data, isPyDigit c = true) ∧ (∀ c ∈ m.data, isPyDigit c = true) ∧
    (∀ c ∈ y.data, isPyDigit c = true) ∧
    d.data.length = 2 ∧ m.data.length = 2 ∧ y.data.length = 4 := by
  unfold matchDateCore at h
  split at h
  · split at h
    · rename_i d1 d2 h1 m1 m2 h2' y1 y2 y3 y4 hcond
      simp only [Bool.and_eq_true] at hcond
      obtain ⟨⟨⟨⟨⟨⟨⟨⟨⟨c1, c2⟩, _⟩, c3⟩, c4⟩, _⟩, c5⟩, c6⟩, c7⟩, c8⟩ := hcond
      simp only [Option.some.injEq, Prod.mk.injEq] at h
      obtain ⟨hd, hm, hy⟩ := h
      subst hd hm hy
      refine ⟨?_, ?_, ?_, rfl, rfl, rfl⟩ <;>
        (intro c hc; simp only [List.mem_cons, List.not_mem_nil, or_false] at hc) <;>
        rcases hc with rfl | rfl | rfl | rfl <;> assumption
    · exact Option.noConfusion h
  · exact Option.noConfusion h

theorem matchReceiptDate_some {s d m y : String}
    (h : matchReceiptDate s = some (d, m, y)) :
    (∀ c ∈ d.data, isPyDigit c = true) ∧ (∀ c ∈ m.data, isPyDigit c = true) ∧
    (∀ c ∈ y.data, isPyDigit c = true) ∧
    d.data.length = 2 ∧ m.data.length = 2 ∧ y.data.length = 4 := by
  rcases h1 : matchDateCore s.data with _ | ⟨gd, gm, gy⟩
  · simp only [matchReceiptDate, h1] at h
    split at h
    · exact matchDateCore_some h
    · exact Option.noConfusion h
  · simp only [matchReceiptDate, h1, Option.some.injEq, Prod.mk.injEq] at h
    obtain ⟨rfl, rfl, rfl⟩ := h
    exact matchDateCore_some h1

theorem matchReceiptDate_exact {s : String} {d1 d2 m1 m2 y1 y2 y3 y4 : Char}
    (hs : s.data = [d1, d2, '-', m1, m2, '-', y1, y2, y3, y4])
    (hd1 : d1.isDigit = true) (hd2 : d2.isDigit = true)
    (hm1 : m1.isDigit = true) (hm2 : m2.isDigit = true)
    (hy1 : y1.isDigit = true) (hy2 : y2.isDigit = true)
    (hy3 : y3.isDigit = true) (hy4 : y4.isDigit = true) :
    matchReceiptDate s
      = some (⟨[d1, d2]⟩, ⟨[m1, m2]⟩, ⟨[y1, y2, y3, y4]⟩) := by
  unfold matchReceiptDate
  rw [hs]
  unfold matchDateCore
  simp [isDigit_isPyDigit hd1, isDigit_isPyDigit hd2, isDigit_isPyDigit hm1,
    isDigit_isPyDigit hm2, isDigit_isPyDigit hy1, isDigit_isPyDigit hy2,
    isDigit_isPyDigit hy3, isDigit_isPyDigit hy4]

theorem extract_of_match {fields : List (String × PyJson)} {s d m y : String}
    (hget : dictGet fields "date" = some (.str s))
    (hm : matchReceiptDate s = some (d, m, y)) :
    extract_filename_from_date (.obj fields) =
      .ok ("lunch_receipt_" ++ m ++ "_" ++ d ++ "_" ++ y ++ ".json") := by
  simp only [extract_filename_from_date, hget, Option.getD_some, hm]

theorem extract_fallback {fields : List (String × PyJson)}
    (hget : dictGet fields "date" = none ∨
      ∃ s, dictGet fields "date" = some (.str s) ∧ matchReceiptDate s = none) :
    extract_filename_from_date (.obj fields)
      = .ok "lunch_receipt_unknown_date.json" := by
  rcases hget with h | ⟨s, h1, h2⟩
  · simp only [extract_filename_from_date, h, Option.getD_none,
      show matchReceiptDate "" = none from by decide]
  · simp only [extract_filename_from_date, h1, Option.getD_some, h2]

theorem extract_output_shape {pd : PyJson} {jf : String}
    (h : extract_filename_from_date pd = .ok jf) :
    ∃ stem : List Char, jf.data = stem ++ ('.' :: ['j', 's', 'o', 'n']) ∧
      stem ≠ [] ∧ '/' ∉ stem ∧ '.' ∉ stem := by
  cases pd with
  | obj fields =>
    simp only [extract_filename_from_date] at h
    rcases hv : (dictGet fields "date").getD (.str "") with _ | b | n | ds | es | fs <;>
      simp only [hv] at h <;> try exact Except.noConfusion h
    rcases hm : matchReceiptDate ds with _ | ⟨d, m, y⟩
    · rw [hm] at h
      simp only [Except.ok.injEq] at h
      subst h
      exact ⟨"lunch_receipt_unknown_date".data, by decide, by decide, by decide,
        by decide⟩
    · rw [hm] at h
      simp only [Except.ok.injEq] at h
      subst h
      obtain ⟨hdd, hmm, hyy, _, _, _⟩ := matchReceiptDate_some hm
      refine ⟨"lunch_receipt_".data ++ m.data ++ '_' :: d.data ++ '_' :: y.data,
        ?_, ?_, ?_, ?_⟩
      · simp only [data_append]
        simp [List.append_assoc]
      · simp
      · intro hc
        simp only [List.mem_append, List.mem_cons] at hc
        rcases hc with ((hc | hc) | hc | hc) | hc | hc
        · revert hc; decide
        · exact ((isPyDigit_ne_special (hmm _ hc)).2.1) rfl
        · exact absurd hc.symm (by decide)
        · exact ((isPyDigit_ne_special (hdd _ hc)).2.1) rfl
        · exact absurd hc.symm (by decide)
        · exact ((isPyDigit_ne_special (hyy _ hc)).2.1) rfl
      · intro hc
        simp only [List.mem_append, List.mem_cons] at hc
        rcases hc with ((hc | hc) | hc | hc) | hc | hc
        · revert hc; decide
        · exact ((isPyDigit_ne_special (hmm _ hc)).1) rfl
        · exact absurd hc.symm (by decide)
        · exact ((isPyDigit_ne_special (hdd _ hc)).1) rfl
        · exact absurd hc.symm (by decide)
        · exact ((isPyDigit_ne_special (hyy _ hc)).1) rfl
  | null => exact Except.noConfusion h
  | bool b => exact Except.noConfusion h
  | int n => exact Except.noConfusion h
  | str s => exact Except.noConfusion h
  | arr es => exact Except.noConfusion h

/-- Fidelity check of the Unicode-aware date pattern: CPython's `\d` also
matches, for instance, the Arabic-Indic digits, so a date written with them
is accepted and yields a derived filename, not the sentinel. -/
theorem extract_unicode_example :
    extract_filename_from_date (.obj [("date", PyJson.str "٠١-٠٢-٢٠٢٤")])
      = .ok "lunch_receipt_٠٢_٠١_٢٠٢٤.json" := rfl

/-! Equational description of `runMain`, one lemma per control-flow branch. -/

theorem runMain_noFile {env : Env} (h : env.fileExists = false) :
    runMain env = ⟨[.checkExists env.imagePath],
      ⟨env.cwd, [], resolvePath env.cwd env.imagePath⟩,
      some ("Error: The file " ++ env.imagePath ++ " was not found.")⟩ := by
  unfold runMain
  rw [h]
  rfl

theorem runMain_encodeError {env : Env} {e : String} (h1 : env.fileExists = true)
    (h2 : env.encodeResult = .error e) :
    runMain env = ⟨[.checkExists env.imagePath, .readEncode env.imagePath],
      ⟨env.cwd, [], resolvePath env.cwd env.imagePath⟩, some e⟩ := by
  unfold runMain
  rw [h1, h2]
  rfl

theorem runMain_noKey {env : Env} {b : String} (h1 : env.fileExists = true)
    (h2 : env.encodeResult = .ok b) (h3 : env.apiKey = none) :
    runMain env = ⟨[.checkExists env.imagePath, .readEncode env.imagePath],
      ⟨env.cwd, [], resolvePath env.cwd env.imagePath⟩,
      some "'Error: MISTRAL_API_KEY environment variable not set.'"⟩ := by
  unfold runMain
  rw [h1, h2, h3]
  rfl

theorem runMain_apiError {env : Env} {b e : String} (h1 : env.fileExists = true)
    (h2 : env.encodeResult = .ok b) (h3 : ∃ k, env.apiKey = some k)
    (h4 : env.apiResult = .error e) :
    runMain env
      = ⟨[.checkExists env.imagePath, .readEncode env.imagePath, .apiCall],
        ⟨env.cwd, [], resolvePath env.cwd env.imagePath⟩,
        some ("Error calling Mistral API: " ++ e)⟩ := by
  obtain ⟨k, h3⟩ := h3
  unfold runMain
  rw [h1, h2, h3, h4]
  rfl

theorem runMain_decodeError {env : Env} {b : String} (h1 : env.fileExists = true)
    (h2 : env.encodeResult = .ok b) (h3 : ∃ k, env.apiKey = some k)
    (h4 : env.apiResult = .ok (.error ())) :
    runMain env
      = ⟨[.checkExists env.imagePath, .readEncode env.imagePath, .apiCall,
          .parseReply],
        ⟨env.cwd, [], resolvePath env.cwd env.imagePath⟩,
        some "Error: The response is not valid JSON."⟩ := by
  obtain ⟨k, h3⟩ := h3
  unfold runMain
  rw [h1, h2, h3, h4]
  rfl

theorem runMain_extractError {env : Env} {b : String} {pd : PyJson} {err : PyError}
    (h1 : env.fileExists = true) (h2 : env.encodeResult = .ok b)
    (h3 : ∃ k, env.apiKey = some k) (h4 : env.apiResult = .ok (.ok pd))
    (h5 : extract_filename_from_date pd = .error err) :
    runMain env
      = ⟨[.checkExists env.imagePath, .readEncode env.imagePath, .apiCall,
          .parseReply],
        ⟨env.cwd, [], resolvePath env.cwd env.imagePath⟩,
        some (pyErrMessage err)⟩ := by
  obtain ⟨k, h3⟩ := h3
  unfold runMain process_chat_response
  simp [h1, h2, h3, h4, h5]

theorem runMain_ok {env : Env} {b : String} {pd : PyJson} {jf : String}
    (h1 : env.fileExists = true) (h2 : env.encodeResult = .ok b)
    (h3 : ∃ k, env.apiKey = some k) (h4 : env.apiResult = .ok (.ok pd))
    (h5 : extract_filename_from_date pd = .ok jf) :
    runMain env
      = ⟨[.checkExists env.imagePath, .readEncode env.imagePath, .apiCall,
          .parseReply, .writeJson (resolvePath env.cwd jf),
          .renameImage (resolvePath env.cwd env.imagePath)
            (resolvePath env.cwd (rename_image_file_target env.imagePath jf))],
        ⟨env.cwd, [(resolvePath env.cwd jf, pd)],
          resolvePath env.cwd (rename_image_file_target env.imagePath jf)⟩,
        none⟩ := by
  obtain ⟨k, h3⟩ := h3
  unfold runMain process_chat_response
  simp [h1, h2, h3, h4, h5]

/-! Classification of `dirname` outputs and behaviour of `joinPath` on them. -/

theorem dropWhile_head_false {p : Char → Bool} {l : List Char} {a : Char}
    {t : List Char} (h : l.dropWhile p = a :: t) : p a = false := by
  induction l with
  | nil => exact absurd h (by simp)
  | cons x xs ih =>
    rw [List.dropWhile_cons] at h
    by_cases hx : p x = true
    · exact ih (by rwa [if_pos hx] at h)
    · rw [if_neg hx] at h
      obtain ⟨rfl, -⟩ : x = a ∧ xs = t := by
        injection h with h1 h2
        exact ⟨h1, h2⟩
      exact Bool.eq_false_iff.mpr hx

theorem mem_dropWhile_of_false {p : Char → Bool} {l : List Char} {x : Char}
    (h : x ∈ l) (hp : p x = false) : x ∈ l.dropWhile p := by
  induction l with
  | nil => exact absurd h (by simp)
  | cons y ys ih =>
    rw [List.dropWhile_cons]
    by_cases hy : p y = true
    · rw [if_pos hy]
      rcases List.mem_cons.mp h with rfl | h2
      · rw [hp] at hy
        exact Bool.noConfusion hy
      · exact ih h2
    · rw [if_neg hy]
      exact h

theorem rstripSlashes_getLast (cs : List Char) :
    (rstripSlashes cs).getLast? ≠ some '/' := by
  unfold rstripSlashes
  rw [List.getLast?_reverse]
  cases hd : cs.reverse.dropWhile (· == '/') with
  | nil => simp
  | cons a t =>
    have ha := dropWhile_head_false hd
    simp only [List.head?_cons, Ne, Option.some.injEq]
    intro e
    rw [e] at ha
    simp at ha

theorem rstripSlashes_mem {cs : List Char} {x : Char} (hx : x ∈ cs)
    (hxs : ¬x = '/') : x ∈ rstripSlashes cs := by
  unfold rstripSlashes
  rw [List.mem_reverse]
  exact mem_dropWhile_of_false (List.mem_reverse.mpr hx)
    (by simpa [beq_eq_false_iff_ne] using hxs)

theorem dirname_eq_some {p : String} {pre post : List Char}
    (h : rsplitOnce p.data '/' = some (pre, post)) :
    dirname p = if (pre ++ ['/']).all (· == '/') then ⟨pre ++ ['/']⟩
      else ⟨rstripSlashes (pre ++ ['/'])⟩ := by
  unfold dirname
  rw [h]

theorem dirname_shape (p : String) :
    dirname p = "" ∨
    ((dirname p).data ≠ [] ∧ ((dirname p).data.all fun c => c == '/') = true) ∨
    ((dirname p).data.getLast? ≠ some '/' ∧ ∃ x ∈ (dirname p).data, ¬x = '/') := by
  rcases h : rsplitOnce p.data '/' with _ | ⟨pre, post⟩
  · left
    unfold dirname
    rw [h]
  · rw [dirname_eq_some h]
    by_cases hall : (((pre ++ ['/']).all fun c => c == '/') = true)
    · rw [if_pos hall]
      exact Or.inr (Or.inl ⟨by simp, hall⟩)
    · rw [if_neg hall]
      refine Or.inr (Or.inr ⟨rstripSlashes_getLast _, ?_⟩)
      obtain ⟨x, hx, hxp⟩ :=
        List.all_eq_false.mp (Bool.eq_false_iff.mpr hall)
      have hxs : ¬x = '/' := by simpa using hxp
      exact ⟨x, rstripSlashes_mem hx hxs, hxs⟩

theorem string_mk_ne_empty {cs : List Char} (h : cs ≠ []) :
    (⟨cs⟩ : String) ≠ "" := by
  intro he
  exact h (congrArg String.data he)

theorem dirname_joinPath_dirname {orig nm : String} (hnm : '/' ∉ nm.data) :
    dirname (joinPath (dirname orig) nm) = dirname orig := by
  have hnmHead : nm.data.head? ≠ some '/' := by
    cases hh : nm.data with
    | nil => simp
    | cons a t =>
      simp only [List.head?_cons, Ne, Option.some.injEq]
      intro e
      exact hnm (by rw [hh, e]; exact List.mem_cons_self _ _)
  rcases dirname_shape orig with h | ⟨hne, hall⟩ | ⟨hlast, hex⟩
  · rw [h, joinPath_empty_left, dirname_no_slash hnm]
  · set D := dirname orig with hD
    obtain hnil | ⟨q, a, hq⟩ := List.eq_nil_or_concat D.data
    · exact absurd hnil hne
    rw [List.concat_eq_append] at hq
    have ha : a = '/' := by
      refine beq_iff_eq.mp (List.all_eq_true.mp hall a ?_)
      rw [hq]
      exact List.mem_append_right _ (List.mem_singleton.mpr rfl)
    subst ha
    have hlastD : D.data.getLast? = some '/' := by
      rw [hq]
      exact List.getLast?_concat q
    rw [joinPath_slash_end hlastD hnmHead]
    have hDnm : (D ++ nm).data = q ++ '/' :: nm.data := by
      rw [data_append, hq, List.append_assoc, List.singleton_append]
    have hall' : ((q ++ ['/']).all fun c => c == '/') = true := by
      rw [← hq]
      exact hall
    calc dirname (D ++ nm) = dirname ⟨q ++ '/' :: nm.data⟩ := by
            rw [show D ++ nm = ⟨q ++ '/' :: nm.data⟩ from String.ext hDnm]
      _ = ⟨q ++ ['/']⟩ := dirname_append_slashes hnm hall'
      _ = D := by
            apply String.ext
            exact hq.symm
  · set D := dirname orig with hD
    have hDne : D ≠ "" := by
      obtain ⟨x, hx, -⟩ := hex
      intro he
      rw [he] at hx
      exact absurd hx (by simp)
    rw [joinPath_general hDne hlast hnmHead]
    have hdata : (D ++ "/" ++ nm).data = D.data ++ '/' :: nm.data := by
      rw [data_append, data_append, List.append_assoc]
      rfl
    rw [show D ++ "/" ++ nm = ⟨D.data ++ '/' :: nm.data⟩ from String.ext hdata,
      dirname_append_nonslash hnm hlast hex]

theorem derived_ne_sentinel {m d y : String}
    (hm : m.data.length = 2) (hd : d.data.length = 2) (hy : y.data.length = 4) :
    "lunch_receipt_" ++ m ++ "_" ++ d ++ "_" ++ y ++ ".json"
      ≠ "lunch_receipt_unknown_date.json" := by
  intro he
  have hlen := congrArg (fun t : String => t.data.length) he
  simp only [data_append, List.length_append] at hlen
  rw [hm, hd, hy] at hlen
  rw [show ("lunch_receipt_" : String).data.length = 14 from rfl,
    show ("_" : String).data.length = 1 from rfl,
    show (".json" : String).data.length = 5 from rfl,
    show ("lunch_receipt_unknown_date.json" : String).data.length = 31 from rfl]
    at hlen
  omega

/-- C2: for a parsed reply object whose date field matches the pattern
exactly (day, month and year groups), the generated filename is
"lunch_receipt_<month>_<day>_<year>.json": the month group precedes the
day group although the input date is day-first. -/
theorem claim2_month_before_day {fields : List (String × PyJson)} {s : String}
    {d1 d2 m1 m2 y1 y2 y3 y4 : Char}
    (hget : dictGet fields "date" = some (.str s))
    (hs : s.data = [d1, d2, '-', m1, m2, '-', y1, y2, y3, y4])
    (hd1 : d1.isDigit = true) (hd2 : d2.isDigit = true)
    (hm1 : m1.isDigit = true) (hm2 : m2.isDigit = true)
    (hy1 : y1.isDigit = true) (hy2 : y2.isDigit = true)
    (hy3 : y3.isDigit = true) (hy4 : y4.isDigit = true) :
    extract_filename_from_date (.obj fields)
      = .ok ("lunch_receipt_" ++ ⟨[m1, m2]⟩ ++ "_" ++ ⟨[d1, d2]⟩ ++ "_"
          ++ ⟨[y1, y2, y3, y4]⟩ ++ ".json") :=
  extract_of_match hget
    (matchReceiptDate_exact hs hd1 hd2 hm1 hm2 hy1 hy2 hy3 hy4)

theorem claim2_witness :
    extract_filename_from_date
        (.obj [("total_price", PyJson.str "42.00"),
          ("date", PyJson.str "25-12-2024")])
      = .ok "lunch_receipt_12_25_2024.json" :=
  claim2_month_before_day rfl rfl rfl rfl rfl rfl rfl rfl rfl rfl

/-- C9: the date check is purely syntactic: any string of exactly two
digits, dash, two digits, dash, four digits — calendar-invalid values
included — produces the date-derived filename, never the sentinel. -/
theorem claim9_no_calendar_validation {fields : List (String × PyJson)}
    {s : String} {d1 d2 m1 m2 y1 y2 y3 y4 : Char}
    (hget : dictGet fields "date" = some (.str s))
    (hs : s.data = [d1, d2, '-', m1, m2, '-', y1, y2, y3, y4])
    (hd1 : d1.isDigit = true) (hd2 : d2.isDigit = true)
    (hm1 : m1.isDigit = true) (hm2 : m2.isDigit = true)
    (hy1 : y1.isDigit = true) (hy2 : y2.isDigit = true)
    (hy3 : y3.isDigit = true) (hy4 : y4.isDigit = true) :
    extract_filename_from_date (.obj fields)
      = .ok ("lunch_receipt_" ++ ⟨[m1, m2]⟩ ++ "_" ++ ⟨[d1, d2]⟩ ++ "_"
          ++ ⟨[y1, y2, y3, y4]⟩ ++ ".json") ∧
    extract_filename_from_date (.obj fields)
      ≠ .ok "lunch_receipt_unknown_date.json" := by
  have h1 := extract_of_match hget
    (matchReceiptDate_exact hs hd1 hd2 hm1 hm2 hy1 hy2 hy3 hy4)
  refine ⟨h1, ?_⟩
  intro he
  rw [h1] at he
  have he2 : "lunch_receipt_" ++ (⟨[m1, m2]⟩ : String) ++ "_" ++ ⟨[d1, d2]⟩
      ++ "_" ++ ⟨[y1, y2, y3, y4]⟩ ++ ".json"
      = "lunch_receipt_unknown_date.json" := by injection he
  exact absurd he2
    (@derived_ne_sentinel ⟨[m1, m2]⟩ ⟨[d1, d2]⟩ ⟨[y1, y2, y3, y4]⟩ rfl rfl rfl)

theorem claim9_witness :
    extract_filename_from_date (.obj [("date", PyJson.str "99-99-9999")])
      = .ok "lunch_receipt_99_99_9999.json" ∧
    extract_filename_from_date (.obj [("date", PyJson.str "99-99-9999")])
      ≠ .ok "lunch_receipt_unknown_date.json" :=
  claim9_no_calendar_validation rfl rfl rfl rfl rfl rfl rfl rfl rfl rfl

/-- C1 counterexample: the date string with a trailing newline does not
match the claimed pattern (two digits, dash, two digits, dash, four digits
and nothing else), yet `extract_filename_from_date` derives a date filename
from it instead of falling back to the sentinel, because CPython's `$` also
matches just before a single newline that ends the string. -/
theorem claim1_counterexample :
    claimDatePattern "12-03-2024\n" = false ∧
    extract_filename_from_date
        (.obj [("total_price", PyJson.str "42.00"),
          ("date", PyJson.str "12-03-2024\n")])
      = .ok "lunch_receipt_03_12_2024.json" ∧
    "lunch_receipt_03_12_2024.json" ≠ "lunch_receipt_unknown_date.json" :=
  ⟨by decide, rfl, by decide⟩

/-- C1 (amended): for a reply parsed as a JSON object whose date field is
missing, or is a string that fails to match the date pattern — its digits
being Unicode decimal digits, as CPython's `\d` — even when a single
trailing newline is allowed (the empty string included),
`extract_filename_from_date` falls back to the sentinel filename, and the
run still saves the parsed object under that name and renames the image
accordingly. -/
theorem claim1_fallback_saves_sentinel {env : Env} {b : String}
    {fields : List (String × PyJson)}
    (h1 : env.fileExists = true) (h2 : env.encodeResult = .ok b)
    (h3 : ∃ k, env.apiKey = some k)
    (h4 : env.apiResult = .ok (.ok (.obj fields)))
    (hdate : dictGet fields "date" = none ∨
      ∃ s, dictGet fields "date" = some (.str s) ∧ matchReceiptDate s = none) :
    extract_filename_from_date (.obj fields)
      = .ok "lunch_receipt_unknown_date.json" ∧
    (runMain env).fs.jsonFiles
      = [(resolvePath env.cwd "lunch_receipt_unknown_date.json",
          .obj fields)] ∧
    (runMain env).fs.imagePath
      = resolvePath env.cwd
          (rename_image_file_target env.imagePath
            "lunch_receipt_unknown_date.json") ∧
    (runMain env).printed = none := by
  have hx := extract_fallback hdate
  rw [runMain_ok h1 h2 h3 h4 hx]
  exact ⟨hx, rfl, rfl, rfl⟩

theorem claim1_witness :
    extract_filename_from_date
        (.obj [("total_price", PyJson.str "42.00"),
          ("date", PyJson.str "31/12/2024")])
      = .ok "lunch_receipt_unknown_date.json" ∧
    (runMain ⟨"receipt.jpg", "/work", true, .ok "b64", some "key",
        .ok (.ok (.obj [("total_price", PyJson.str "42.00"),
          ("date", PyJson.str "31/12/2024")]))⟩).fs.jsonFiles
      = [(resolvePath "/work" "lunch_receipt_unknown_date.json",
          .obj [("total_price", PyJson.str "42.00"),
            ("date", PyJson.str "31/12/2024")])] ∧
    (runMain ⟨"receipt.jpg", "/work", true, .ok "b64", some "key",
        .ok (.ok (.obj [("total_price", PyJson.str "42.00"),
          ("date", PyJson.str "31/12/2024")]))⟩).fs.imagePath
      = resolvePath "/work"
          (rename_image_file_target "receipt.jpg"
            "lunch_receipt_unknown_date.json") ∧
    (runMain ⟨"receipt.jpg", "/work", true, .ok "b64", some "key",
        .ok (.ok (.obj [("total_price", PyJson.str "42.00"),
          ("date", PyJson.str "31/12/2024")]))⟩).printed = none :=
  claim1_fallback_saves_sentinel rfl rfl ⟨"key", rfl⟩ rfl
    (Or.inr ⟨"31/12/2024", rfl, rfl⟩)

/-- C3 counterexample: a reply whose content is the valid JSON array `[]`
does not complete with a save and a rename as the claim states: the run
writes no JSON file, leaves the image where it was, and prints the
AttributeError message instead. -/
theorem claim3_counterexample :
    (runMain ⟨"receipt.jpg", "/work", true, .ok "b64", some "key",
        .ok (.ok (.arr []))⟩).fs.jsonFiles = [] ∧
    (runMain ⟨"receipt.jpg", "/work", true, .ok "b64", some "key",
        .ok (.ok (.arr []))⟩).fs.imagePath
      = resolvePath "/work" "receipt.jpg" ∧
    (runMain ⟨"receipt.jpg", "/work", true, .ok "b64", some "key",
        .ok (.ok (.arr []))⟩).printed
      = some "'list' object has no attribute 'get'" :=
  ⟨rfl, rfl, rfl⟩

/-- C3 (amended): for a reply that is valid JSON but not an object,
`parsed_data.get` raises an AttributeError inside `process_chat_response`;
`main` catches and prints it, no JSON file is written and the image is not
renamed. -/
theorem claim3_non_object_raises {env : Env} {b : String} {pd : PyJson}
    (h1 : env.fileExists = true) (h2 : env.encodeResult = .ok b)
    (h3 : ∃ k, env.apiKey = some k) (h4 : env.apiResult = .ok (.ok pd))
    (hno : ∀ fields, pd ≠ .obj fields) :
    extract_filename_from_date pd
      = .error (.attributeError
          ("'" ++ pyTypeName pd ++ "' object has no attribute 'get'")) ∧
    (runMain env).fs.jsonFiles = [] ∧
    (runMain env).fs.imagePath = resolvePath env.cwd env.imagePath ∧
    (runMain env).printed
      = some ("'" ++ pyTypeName pd ++ "' object has no attribute 'get'") := by
  have hx : extract_filename_from_date pd
      = .error (.attributeError
          ("'" ++ pyTypeName pd ++ "' object has no attribute 'get'")) := by
    cases pd with
    | obj fields => exact absurd rfl (hno fields)
    | null => rfl
    | bool b2 => rfl
    | int n => rfl
    | str s => rfl
    | arr es => rfl
  rw [runMain_extractError h1 h2 h3 h4 hx]
  exact ⟨hx, rfl, rfl, rfl⟩

theorem claim3_witness :
    extract_filename_from_date (.str "just a string")
      = .error (.attributeError "'str' object has no attribute 'get'") ∧
    (runMain ⟨"receipt.jpg", "/work", true, .ok "b64", some "key",
        .ok (.ok (.str "just a string"))⟩).fs.jsonFiles = [] ∧
    (runMain ⟨"receipt.jpg", "/work", true, .ok "b64", some "key",
        .ok (.ok (.str "just a string"))⟩).fs.imagePath
      = resolvePath "/work" "receipt.jpg" ∧
    (runMain ⟨"receipt.jpg", "/work", true, .ok "b64", some "key",
        .ok (.ok (.str "just a string"))⟩).printed
      = some "'str' object has no attribute 'get'" :=
  claim3_non_object_raises rfl rfl ⟨"key", rfl⟩ rfl
    (fun _ h => PyJson.noConfusion h)

/-- C4: when the reply content is not valid JSON, `process_chat_response`
raises a ValueError, `main` catches and prints it, no JSON file is written
and the image keeps its path: the filesystem state is unchanged. -/
theorem claim4_invalid_json_state_unchanged {env : Env} {b : String}
    (h1 : env.fileExists = true) (h2 : env.encodeResult = .ok b)
    (h3 : ∃ k, env.apiKey = some k) (h4 : env.apiResult = .ok (.error ())) :
    (process_chat_response (.error ()) env.imagePath
        ⟨env.cwd, [], resolvePath env.cwd env.imagePath⟩).result
      = .error (.valueError "Error: The response is not valid JSON.") ∧
    (runMain env).fs.jsonFiles = [] ∧
    (runMain env).fs.imagePath = resolvePath env.cwd env.imagePath ∧
    (runMain env).printed = some "Error: The response is not valid JSON." ∧
    ((runMain env).trace.all fun e => !isFsMod e) = true := by
  rw [runMain_decodeError h1 h2 h3 h4]
  exact ⟨rfl, rfl, rfl, rfl, rfl⟩

theorem claim4_witness :
    (process_chat_response (.error ()) "receipt.jpg"
        ⟨"/work", [], resolvePath "/work" "receipt.jpg"⟩).result
      = .error (.valueError "Error: The response is not valid JSON.") ∧
    (runMain ⟨"receipt.jpg", "/work", true, .ok "b64", some "key",
        .ok (.error ())⟩).fs.jsonFiles = [] ∧
    (runMain ⟨"receipt.jpg", "/work", true, .ok "b64", some "key",
        .ok (.error ())⟩).fs.imagePath = resolvePath "/work" "receipt.jpg" ∧
    (runMain ⟨"receipt.jpg", "/work", true, .ok "b64", some "key",
        .ok (.error ())⟩).printed
      = some "Error: The response is not valid JSON." ∧
    ((runMain ⟨"receipt.jpg", "/work", true, .ok "b64", some "key",
        .ok (.error ())⟩).trace.all fun e => !isFsMod e) = true :=
  claim4_invalid_json_state_unchanged rfl rfl ⟨"key", rfl⟩ rfl

/-- C6: every run respects the fixed pipeline order: the image is read and
encoded before the API call, the API call precedes the reply parse, the
parse precedes the JSON write, and the JSON write precedes the rename; in
particular no filesystem modification ever occurs before the API call
returns. -/
theorem claim6_pipeline_order (env : Env) :
    pipelineOrdered (runMain env).trace = true := by
  cases hfe : env.fileExists
  · rw [runMain_noFile hfe]
    rfl
  · rcases henc : env.encodeResult with e | b
    · rw [runMain_encodeError hfe henc]
      rfl
    · rcases hkey : env.apiKey with _ | k
      · rw [runMain_noKey hfe henc hkey]
        rfl
      · rcases hapi : env.apiResult with e | parsed
        · rw [runMain_apiError hfe henc ⟨k, hkey⟩ hapi]
          rfl
        · rcases parsed with u | pd
          · cases u
            rw [runMain_decodeError hfe henc ⟨k, hkey⟩ hapi]
            rfl
          · rcases hx : extract_filename_from_date pd with err | jf
            · rw [runMain_extractError hfe henc ⟨k, hkey⟩ hapi hx]
              rfl
            · rw [runMain_ok hfe henc ⟨k, hkey⟩ hapi hx]
              rfl

theorem claim6_witness :
    pipelineOrdered (runMain ⟨"receipt.jpg", "/work", true, .ok "b64",
        some "key",
        .ok (.ok (.obj [("total_price", PyJson.str "42.00"),
          ("date", PyJson.str "25-12-2024")]))⟩).trace = true :=
  claim6_pipeline_order
    ⟨"receipt.jpg", "/work", true, .ok "b64", some "key",
      .ok (.ok (.obj [("total_price", PyJson.str "42.00"),
        ("date", PyJson.str "25-12-2024")]))⟩

/-- C7: the remote API is invoked at most once per run; and when the call
raises, main prints the error and returns: the trace stops at the call, no
JSON file is written and the image is not renamed. -/
theorem claim7_single_api_call (env : Env) :
    countApiCalls (runMain env).trace ≤ 1 ∧
    (∀ e b k, env.fileExists = true → env.encodeResult = .ok b →
      env.apiKey = some k → env.apiResult = .error e →
      (runMain env).trace
          = [.checkExists env.imagePath, .readEncode env.imagePath,
            .apiCall] ∧
      (runMain env).fs.jsonFiles = [] ∧
      (runMain env).fs.imagePath = resolvePath env.cwd env.imagePath ∧
      (runMain env).printed = some ("Error calling Mistral API: " ++ e)) := by
  constructor
  · cases hfe : env.fileExists
    · rw [runMain_noFile hfe]
      exact Nat.zero_le 1
    · rcases henc : env.encodeResult with e | b
      · rw [runMain_encodeError hfe henc]
        exact Nat.zero_le 1
      · rcases hkey : env.apiKey with _ | k
        · rw [runMain_noKey hfe henc hkey]
          exact Nat.zero_le 1
        · rcases hapi : env.apiResult with e | parsed
          · rw [runMain_apiError hfe henc ⟨k, hkey⟩ hapi]
            exact Nat.le_refl 1
          · rcases parsed with u | pd
            · cases u
              rw [runMain_decodeError hfe henc ⟨k, hkey⟩ hapi]
              exact Nat.le_refl 1
            · rcases hx : extract_filename_from_date pd with err | jf
              · rw [runMain_extractError hfe henc ⟨k, hkey⟩ hapi hx]
                exact Nat.le_refl 1
              · rw [runMain_ok hfe henc ⟨k, hkey⟩ hapi hx]
                exact Nat.le_refl 1
  · intro e b k h1 h2 h3 h4
    rw [runMain_apiError h1 h2 ⟨k, h3⟩ h4]
    exact ⟨rfl, rfl, rfl, rfl⟩

theorem claim7_witness :
    countApiCalls (runMain ⟨"receipt.jpg", "/work", true, .ok "b64",
        some "key", .error "boom"⟩).trace ≤ 1 ∧
    (runMain ⟨"receipt.jpg", "/work", true, .ok "b64", some "key",
        .error "boom"⟩).trace
      = [.checkExists "receipt.jpg", .readEncode "receipt.jpg", .apiCall] ∧
    (runMain ⟨"receipt.jpg", "/work", true, .ok "b64", some "key",
        .error "boom"⟩).fs.jsonFiles = [] ∧
    (runMain ⟨"receipt.jpg", "/work", true, .ok "b64", some "key",
        .error "boom"⟩).fs.imagePath = resolvePath "/work" "receipt.jpg" ∧
    (runMain ⟨"receipt.jpg", "/work", true, .ok "b64", some "key",
        .error "boom"⟩).printed = some "Error calling Mistral API: boom" := by
  obtain ⟨hc, hr⟩ := claim7_single_api_call
    ⟨"receipt.jpg", "/work", true, .ok "b64", some "key", .error "boom"⟩
  obtain ⟨ht, hj, hi, hp⟩ := hr "boom" "b64" "key" rfl rfl rfl rfl
  exact ⟨hc, ht, hj, hi, hp⟩

/-- C8: the run never validates or transforms any field of a successfully
parsed reply: every JSON file it writes holds exactly the parsed value, and
when the filename derivation succeeds, exactly that one file is written —
whatever the shape of total_price or of any other field. -/
theorem claim8_saves_parsed_unchanged (env : Env) {b : String} {pd : PyJson}
    (h1 : env.fileExists = true) (h2 : env.encodeResult = .ok b)
    (h3 : ∃ k, env.apiKey = some k) (h4 : env.apiResult = .ok (.ok pd)) :
    (∀ entry ∈ (runMain env).fs.jsonFiles, entry.2 = pd) ∧
    (∀ jf, extract_filename_from_date pd = .ok jf →
      (runMain env).fs.jsonFiles = [(resolvePath env.cwd jf, pd)]) := by
  constructor
  · rcases hx : extract_filename_from_date pd with err | jf
    · rw [runMain_extractError h1 h2 h3 h4 hx]
      intro entry he
      exact absurd he (by simp)
    · rw [runMain_ok h1 h2 h3 h4 hx]
      intro entry he
      rw [List.mem_singleton.mp he]
  · intro jf hx
    rw [runMain_ok h1 h2 h3 h4 hx]

theorem claim8_witness :
    ((resolvePath "/work" "lunch_receipt_12_25_2024.json",
        PyJson.obj [("total_price", PyJson.str "12,95 EUR"),
          ("date", PyJson.str "25-12-2024"),
          ("vendor", PyJson.str "Chez Test")]) : String × PyJson).2
      = PyJson.obj [("total_price", PyJson.str "12,95 EUR"),
          ("date", PyJson.str "25-12-2024"),
          ("vendor", PyJson.str "Chez Test")] ∧
    (runMain ⟨"receipt.jpg", "/work", true, .ok "b64", some "key",
        .ok (.ok (PyJson.obj [("total_price", PyJson.str "12,95 EUR"),
          ("date", PyJson.str "25-12-2024"),
          ("vendor", PyJson.str "Chez Test")]))⟩).fs.jsonFiles
      = [(resolvePath "/work" "lunch_receipt_12_25_2024.json",
          PyJson.obj [("total_price", PyJson.str "12,95 EUR"),
            ("date", PyJson.str "25-12-2024"),
            ("vendor", PyJson.str "Chez Test")])] := by
  obtain ⟨hall2, hone⟩ := claim8_saves_parsed_unchanged
    ⟨"receipt.jpg", "/work", true, .ok "b64", some "key",
      .ok (.ok (PyJson.obj [("total_price", PyJson.str "12,95 EUR"),
        ("date", PyJson.str "25-12-2024"),
        ("vendor", PyJson.str "Chez Test")]))⟩
    rfl rfl ⟨"key", rfl⟩ rfl
  have hfiles := hone "lunch_receipt_12_25_2024.json" rfl
  refine ⟨?_, hfiles⟩
  refine hall2 _ ?_
  rw [hfiles]
  exact List.mem_singleton.mpr rfl

theorem string_ne_empty_of_data {p : String} (h : p.data ≠ []) : p ≠ "" := by
  intro he
  rw [he] at h
  exact h rfl

theorem wfPath_facts {p : String} (h : wfPath p = true) :
    p.data ≠ [] ∧ noDoubleSlash p.data = true ∧
    p.data.getLast? ≠ some '/' := by
  unfold wfPath at h
  simp only [Bool.and_eq_true] at h
  obtain ⟨⟨hne, hnds⟩, hlast⟩ := h
  refine ⟨?_, hnds, ?_⟩
  · intro he
    rw [he] at hne
    simp at hne
  · intro he
    rw [he] at hlast
    simp at hlast

theorem wfAbsDir_facts {p : String} (h : wfAbsDir p = true) :
    p ≠ "" ∧ p.data.getLast? ≠ some '/' ∧ (∃ x ∈ p.data, ¬x = '/') ∧
    p.data.head? = some '/' := by
  obtain ⟨hhead, hwf⟩ : (p.data.head? == some '/') = true ∧ wfPath p = true := by
    unfold wfAbsDir at h
    simpa [Bool.and_eq_true] using h
  obtain ⟨hne, hnds, hlast⟩ := wfPath_facts hwf
  have hhd : p.data.head? = some '/' := by simpa using hhead
  refine ⟨string_ne_empty_of_data hne, hlast, ?_, hhd⟩
  rcases hd : p.data with _ | ⟨a, rest⟩
  · exact absurd hd hne
  · have ha : a = '/' := by
      rw [hd] at hhd
      simpa using hhd
    rcases hr : rest with _ | ⟨c, rest2⟩
    · rw [hd, hr, ha] at hlast
      simp at hlast
    · have hc : ¬c = '/' := by
        rw [hd, hr, ha] at hnds
        rw [noDoubleSlash, Bool.and_eq_true] at hnds
        intro he
        rw [he] at hnds
        simp at hnds
      exact ⟨c, List.mem_cons_of_mem _ (List.mem_cons_self _ _), hc⟩

theorem noDoubleSlash_getLast {q rest : List Char}
    (h : noDoubleSlash (q ++ '/' :: rest) = true) : q.getLast? ≠ some '/' := by
  intro hl
  obtain hnil | ⟨q2, a, hq⟩ := List.eq_nil_or_concat q
  · rw [hnil] at hl
    simp at hl
  · rw [List.concat_eq_append] at hq
    have ha : a = '/' := by
      rw [hq, List.getLast?_concat] at hl
      simpa using hl
    rw [hq, ha, List.append_assoc, List.singleton_append] at h
    have h2 := noDoubleSlash_suffix h
    rw [noDoubleSlash, Bool.and_eq_true] at h2
    simp at h2

theorem head_ne_slash_of_not_mem {q : String} (hq : '/' ∉ q.data) :
    q.data.head? ≠ some '/' := by
  cases hd : q.data with
  | nil => simp
  | cons a t =>
    simp only [List.head?_cons, Ne, Option.some.injEq]
    intro e
    exact hq (by rw [hd, e]; exact List.mem_cons_self _ _)

theorem dirname_resolve_cwd {cwd q : String} (hcwd : wfAbsDir cwd = true)
    (hq : '/' ∉ q.data) : dirname (resolvePath cwd q) = cwd := by
  obtain ⟨hcne, hclast, hcex, hchead⟩ := wfAbsDir_facts hcwd
  have hqh := head_ne_slash_of_not_mem hq
  have hres : resolvePath cwd q = cwd ++ "/" ++ q := by
    unfold resolvePath
    rw [if_neg (by simpa using hqh)]
    exact joinPath_general hcne hclast hqh
  rw [hres]
  have hdata : (cwd ++ "/" ++ q).data = cwd.data ++ '/' :: q.data := by
    rw [data_append, data_append, List.append_assoc]
    rfl
  rw [show cwd ++ "/" ++ q = ⟨cwd.data ++ '/' :: q.data⟩ from String.ext hdata,
    dirname_append_nonslash hq hclast hcex]

/-- C5: `rename_image_file` targets a path in the directory of the original
image whose name is the JSON filename with its ".json" suffix replaced by
the original image's file extension. -/
theorem claim5_rename_target (pd : PyJson) (orig : String) {jf : String}
    (h : extract_filename_from_date pd = .ok jf) :
    rename_image_file_target orig jf
      = joinPath (dirname orig) (dropDotJson jf ++ (splitext orig).2) ∧
    dirname (rename_image_file_target orig jf) = dirname orig := by
  obtain ⟨stem, hjf, hne, hns, hnd⟩ := extract_output_shape h
  obtain ⟨jl⟩ := jf
  have hjl : jl = stem ++ ('.' :: ['j', 's', 'o', 'n']) := hjf
  subst hjl
  have hsplit : splitext ⟨stem ++ ('.' :: ['j', 's', 'o', 'n'])⟩
      = (⟨stem⟩, ".json") := splitext_stem_json hns hnd hne
  have hdrop : dropDotJson ⟨stem ++ ('.' :: ['j', 's', 'o', 'n'])⟩
      = ⟨stem⟩ := by
    unfold dropDotJson
    have hlen : (stem ++ ('.' :: ['j', 's', 'o', 'n'])).length - 5
        = stem.length := by
      rw [List.length_append,
        show ('.' :: ['j', 's', 'o', 'n'] : List Char).length = 5 from rfl]
      omega
    exact congrArg String.mk (by rw [show (String.mk (stem ++ ('.' :: ['j', 's', 'o', 'n']))).data = stem ++ ('.' :: ['j', 's', 'o', 'n']) from rfl, hlen]; exact List.take_left stem _)
  have htarget : rename_image_file_target orig ⟨stem ++ ('.' :: ['j', 's', 'o', 'n'])⟩
      = joinPath (dirname orig) (⟨stem⟩ ++ (splitext orig).2) := by
    unfold rename_image_file_target
    rw [hsplit]
  constructor
  · rw [htarget, hdrop]
  · rw [htarget]
    apply dirname_joinPath_dirname
    rw [data_append]
    intro hc
    rcases List.mem_append.mp hc with hc1 | hc2
    · exact hns hc1
    · exact splitext_ext_no_slash orig hc2

theorem claim5_witness :
    rename_image_file_target "pics/photo.jpeg" "lunch_receipt_12_25_2024.json"
      = joinPath (dirname "pics/photo.jpeg")
          (dropDotJson "lunch_receipt_12_25_2024.json"
            ++ (splitext "pics/photo.jpeg").2) ∧
    dirname (rename_image_file_target "pics/photo.jpeg"
        "lunch_receipt_12_25_2024.json")
      = dirname "pics/photo.jpeg" :=
  claim5_rename_target (.obj [("date", PyJson.str "25-12-2024")])
    "pics/photo.jpeg" rfl

theorem dirname_resolve_join {cwd orig nm : String}
    (hcwd : wfAbsDir cwd = true) (horig : wfPath orig = true)
    (hnm : '/' ∉ nm.data) :
    dirname (resolvePath cwd (joinPath (dirname orig) nm))
      = dirname (resolvePath cwd orig) := by
  obtain ⟨hcne, hclast, hcex, hchead⟩ := wfAbsDir_facts hcwd
  obtain ⟨hone, honds, holast⟩ := wfPath_facts horig
  have hnmh := head_ne_slash_of_not_mem hnm
  rcases ho : rsplitOnce orig.data '/' with _ | ⟨pre, post⟩
  · have hno : '/' ∉ orig.data := rsplitOnce_none_iff.mp ho
    rw [dirname_no_slash hno, joinPath_empty_left,
      dirname_resolve_cwd hcwd hnm, dirname_resolve_cwd hcwd hno]
  · obtain ⟨hodata, hpost⟩ := rsplitOnce_some ho
    have horig_eq : orig = ⟨pre ++ '/' :: post⟩ := String.ext hodata
    have hprelast : pre.getLast? ≠ some '/' := by
      have h0 : noDoubleSlash (pre ++ '/' :: post) = true := by
        rw [← hodata]
        exact honds
      exact noDoubleSlash_getLast h0
    cases pre with
    | nil =>
      have hD : dirname orig = "/" := by
        rw [horig_eq]
        have hds := @dirname_append_slashes [] post hpost (by decide)
        simpa using hds
      rw [hD]
      have hjoin : joinPath "/" nm = "/" ++ nm :=
        joinPath_slash_end (by decide) hnmh
      rw [hjoin]
      have habs : (("/" : String) ++ nm).data.head? = some '/' := by
        rw [data_append]
        rfl
      have hres1 : resolvePath cwd ("/" ++ nm) = "/" ++ nm := by
        unfold resolvePath
        rw [if_pos (by simp [habs])]
      rw [hres1]
      have hdn : dirname ("/" ++ nm) = "/" := by
        have hdata : (("/" : String) ++ nm).data = [] ++ '/' :: nm.data := by
          rw [data_append]
          rfl
        rw [show ("/" : String) ++ nm = ⟨[] ++ '/' :: nm.data⟩
          from String.ext hdata]
        have hds := @dirname_append_slashes [] nm.data hnm (by decide)
        simpa using hds
      rw [hdn]
      have hoh : orig.data.head? = some '/' := by
        rw [hodata]
        rfl
      have hres2 : resolvePath cwd orig = orig := by
        unfold resolvePath
        rw [if_pos (by simpa using hoh)]
      rw [hres2, hD]
    | cons x xs =>
      have hpreex : ∃ w ∈ x :: xs, ¬w = '/' := by
        by_cases hx : x = '/'
        · rcases hxs : xs with _ | ⟨y, ys⟩
          · exact absurd (by rw [hxs, hx]; rfl) hprelast
          · have hnds2 : noDoubleSlash (x :: y :: (ys ++ '/' :: post))
                = true := by
              have h0 := honds
              rw [hodata, hxs] at h0
              simpa [List.cons_append] using h0
            have hy : ¬y = '/' := by
              intro he
              rw [hx, he] at hnds2
              simp [noDoubleSlash] at hnds2
            exact ⟨y, List.mem_cons_of_mem _ (List.mem_cons_self _ _), hy⟩
        · exact ⟨x, List.mem_cons_self _ _, hx⟩
      have hD : dirname orig = ⟨x :: xs⟩ := by
        rw [horig_eq]
        exact dirname_append_nonslash hpost hprelast hpreex
      rw [hD]
      have hpne : (⟨x :: xs⟩ : String) ≠ "" :=
        string_ne_empty_of_data (by simp)
      have hjoin : joinPath ⟨x :: xs⟩ nm = ⟨x :: xs⟩ ++ "/" ++ nm :=
        joinPath_general hpne hprelast hnmh
      rw [hjoin]
      have htdata : ((⟨x :: xs⟩ : String) ++ "/" ++ nm).data
          = (x :: xs) ++ '/' :: nm.data := by
        rw [data_append, data_append, List.append_assoc]
        rfl
      by_cases hx : x = '/'
      · have hth : ((⟨x :: xs⟩ : String) ++ "/" ++ nm).data.head?
            = some '/' := by
          rw [htdata, List.cons_append, List.head?_cons, hx]
        have hres1 : resolvePath cwd (⟨x :: xs⟩ ++ "/" ++ nm)
            = ⟨x :: xs⟩ ++ "/" ++ nm := by
          unfold resolvePath
          rw [if_pos (by simpa using hth)]
        have hoh : orig.data.head? = some '/' := by
          rw [hodata, List.cons_append, List.head?_cons, hx]
        have hres2 : resolvePath cwd orig = orig := by
          unfold resolvePath
          rw [if_pos (by simpa using hoh)]
        rw [hres1, hres2,
          show (⟨x :: xs⟩ : String) ++ "/" ++ nm
            = ⟨(x :: xs) ++ '/' :: nm.data⟩ from String.ext htdata,
          dirname_append_nonslash hnm hprelast hpreex,
          horig_eq, dirname_append_nonslash hpost hprelast hpreex]
      · have hth : ((⟨x :: xs⟩ : String) ++ "/" ++ nm).data.head?
            ≠ some '/' := by
          rw [htdata, List.cons_append, List.head?_cons]
          simp only [Ne, Option.some.injEq]
          exact fun e => hx e
        have hres1 : resolvePath cwd (⟨x :: xs⟩ ++ "/" ++ nm)
            = cwd ++ "/" ++ (⟨x :: xs⟩ ++ "/" ++ nm) := by
          unfold resolvePath
          rw [if_neg (by simpa using hth)]
          exact joinPath_general hcne hclast hth
        have hoh : orig.data.head? ≠ some '/' := by
          rw [hodata, List.cons_append, List.head?_cons]
          simp only [Ne, Option.some.injEq]
          exact fun e => hx e
        have hres2 : resolvePath cwd orig = cwd ++ "/" ++ orig := by
          unfold resolvePath
          rw [if_neg (by simpa using hoh)]
          exact joinPath_general hcne hclast hoh
        rw [hres1, hres2]
        have hylast : (cwd.data ++ '/' :: (x :: xs)).getLast?
            ≠ some '/' := by
          rw [List.getLast?_append_of_ne_nil _ (by simp),
            show ('/' :: (x :: xs) : List Char) = ['/'] ++ (x :: xs) from rfl,
            List.getLast?_append_of_ne_nil _ (by simp)]
          exact hprelast
        have hyex : ∃ w ∈ cwd.data ++ '/' :: (x :: xs), ¬w = '/' :=
          ⟨x, List.mem_append_right _
            (List.mem_cons_of_mem _ (List.mem_cons_self _ _)), hx⟩
        have hd1 : (cwd ++ "/" ++ (⟨x :: xs⟩ ++ "/" ++ nm)).data
            = (cwd.data ++ '/' :: (x :: xs)) ++ '/' :: nm.data := by
          rw [data_append, data_append, htdata,
            show ("/" : String).data = ['/'] from rfl]
          simp [List.append_assoc]
        have hd2 : (cwd ++ "/" ++ orig).data
            = (cwd.data ++ '/' :: (x :: xs)) ++ '/' :: post := by
          rw [data_append, data_append, hodata,
            show ("/" : String).data = ['/'] from rfl]
          simp [List.append_assoc]
        rw [show cwd ++ "/" ++ (⟨x :: xs⟩ ++ "/" ++ nm)
            = ⟨(cwd.data ++ '/' :: (x :: xs)) ++ '/' :: nm.data⟩
            from String.ext hd1,
          show cwd ++ "/" ++ orig
            = ⟨(cwd.data ++ '/' :: (x :: xs)) ++ '/' :: post⟩
            from String.ext hd2,
          dirname_append_nonslash hnm hylast hyex,
          dirname_append_nonslash hpost hylast hyex]

/-- C10: when a run succeeds (for a well-formed working directory and image
path), the JSON result file is created in the process working directory
while the renamed image stays in the original image's directory; hence the
two files are siblings exactly when the image lies in the working
directory. -/
theorem claim10_directories (env : Env) {b : String} {pd : PyJson}
    {jf : String}
    (h1 : env.fileExists = true) (h2 : env.encodeResult = .ok b)
    (h3 : ∃ k, env.apiKey = some k) (h4 : env.apiResult = .ok (.ok pd))
    (h5 : extract_filename_from_date pd = .ok jf)
    (hcwd : wfAbsDir env.cwd = true) (hor : wfPath env.imagePath = true) :
    (runMain env).fs.jsonFiles = [(resolvePath env.cwd jf, pd)] ∧
    dirname (resolvePath env.cwd jf) = env.cwd ∧
    dirname (runMain env).fs.imagePath
      = dirname (resolvePath env.cwd env.imagePath) ∧
    (dirname (runMain env).fs.imagePath = dirname (resolvePath env.cwd jf) ↔
      dirname (resolvePath env.cwd env.imagePath) = env.cwd) := by
  obtain ⟨stem, hjf, hne, hns, hnd⟩ := extract_output_shape h5
  have hjeq : jf = ⟨stem ++ ('.' :: ['j', 's', 'o', 'n'])⟩ := String.ext hjf
  have hjns : '/' ∉ jf.data := by
    rw [hjf]
    intro hc
    rcases List.mem_append.mp hc with hc1 | hc2
    · exact hns hc1
    · revert hc2
      decide
  have c2 : dirname (resolvePath env.cwd jf) = env.cwd :=
    dirname_resolve_cwd hcwd hjns
  have c3 : dirname (resolvePath env.cwd
        (rename_image_file_target env.imagePath jf))
      = dirname (resolvePath env.cwd env.imagePath) := by
    have ht : rename_image_file_target env.imagePath jf
        = joinPath (dirname env.imagePath)
          ((splitext jf).1 ++ (splitext env.imagePath).2) := rfl
    rw [ht]
    apply dirname_resolve_join hcwd hor
    rw [data_append]
    intro hc
    rcases List.mem_append.mp hc with hc1 | hc2
    · rw [hjeq, splitext_stem_json hns hnd hne] at hc1
      exact hns hc1
    · exact splitext_ext_no_slash _ hc2
  rw [runMain_ok h1 h2 h3 h4 h5]
  exact ⟨rfl, c2, c3, by rw [c3, c2]⟩

theorem claim10_witness :
    (runMain ⟨"/pics/photo.jpg", "/work", true, .ok "b64", some "key",
        .ok (.ok (.obj [("date", PyJson.str "25-12-2024")]))⟩).fs.jsonFiles
      = [(resolvePath "/work" "lunch_receipt_12_25_2024.json",
          .obj [("date", PyJson.str "25-12-2024")])] ∧
    dirname (resolvePath "/work" "lunch_receipt_12_25_2024.json") = "/work" ∧
    dirname (runMain ⟨"/pics/photo.jpg", "/work", true, .ok "b64",
        some "key",
        .ok (.ok (.obj [("date", PyJson.str "25-12-2024")]))⟩).fs.imagePath
      = dirname (resolvePath "/work" "/pics/photo.jpg") ∧
    (dirname (runMain ⟨"/pics/photo.jpg", "/work", true, .ok "b64",
        some "key",
        .ok (.ok (.obj [("date", PyJson.str "25-12-2024")]))⟩).fs.imagePath
        = dirname (resolvePath "/work" "lunch_receipt_12_25_2024.json") ↔
      dirname (resolvePath "/work" "/pics/photo.jpg") = "/work") ∧
    dirname (resolvePath "/work" "/pics/photo.jpg") ≠ "/work" := by
  obtain ⟨w1, w2, w3, w4⟩ := claim10_directories
    ⟨"/pics/photo.jpg", "/work", true, .ok "b64", some "key",
      .ok (.ok (.obj [("date", PyJson.str "25-12-2024")]))⟩
    rfl rfl ⟨"key", rfl⟩ rfl rfl (by decide) (by decide)
  exact ⟨w1, w2, w3, w4, by decide⟩

end Receipt
